import Mathlib

/-!
# age-chat: verification of the server message-relay engine

Shallow embedding of the age-chat server (`src/common.rs`, `src/server/comms.rs`).

* The wire message model (`Auth`, `Note`, `ClientMsg`, `ServerMsg`) is embedded
  structurally; the serde-JSON encoding with the `type` discriminator tag is
  modelled at the JSON-value level (`Json`), the text layer being serde_json's.
  The foreign `chrono::DateTime<Utc>` timestamp is represented by its RFC 3339
  serde rendering, a `String`, which chrono serializes and parses losslessly.
* The per-connection handlers `handle_auth_req`, `handle_auth_plaintext`,
  `handle_send_note`, `handle_client_ws_text_msg` are embedded as pure
  functions over the connection state, the shared registry (`user_conns`,
  an association list standing for the `HashMap<String, Sender<Note>>`) and
  an effect trace (socket sends and relay-channel pushes).
* Randomness (`rand::rng().fill_bytes`) is modelled by a stream of fresh
  secrets indexed by how many `AuthReq` messages the connection has handled;
  the age crypto calls are an oracle parameter (`CryptoOracle`).
* The `serve_client_ws_conn` select loop is a fold over a list of events
  (inbound frames, relay-channel deliveries, shutdown), and `serve` runs the
  loop and then performs the registry cleanup, as in the source.
-/

/-- `Auth { pub_key, ciphertext, plaintext }` from `src/common.rs`. -/
structure Auth where
  pub_key : String
  ciphertext : String
  plaintext : String
deriving DecidableEq, Repr

/-- `Note { from, to, encrypted_content, timestamp }` from `src/common.rs`.
The `chrono::DateTime<Utc>` timestamp is modelled by its RFC 3339 serde
rendering (a string), the form in which it crosses the wire. -/
structure Note where
  «from» : String
  «to» : String
  encrypted_content : String
  timestamp : String
deriving DecidableEq, Repr

/-- `ServerMsg` from `src/common.rs`: messages the server sends. -/
inductive ServerMsg where
  | AuthSecret (a : Auth)
  | AuthGranted (a : Auth)
  | AuthDenied (a : Auth)
  | RecNote (n : Note)
deriving DecidableEq, Repr

/-- `ClientMsg` from `src/common.rs`: messages the client sends. -/
inductive ClientMsg where
  | AuthReq (a : Auth)
  | AuthPlaintext (a : Auth)
  | SendNote (n : Note)
deriving DecidableEq, Repr

/-- JSON values, the target of `serde_json` serialization. -/
inductive Json where
  | null
  | bool (b : Bool)
  | num (n : Int)
  | str (s : String)
  | arr (xs : List Json)
  | obj (fields : List (String × Json))

/-- First-match lookup of a field in a JSON object, as serde does by name. -/
def jlookup (fields : List (String × Json)) (k : String) : Option Json :=
  match fields with
  | [] => none
  | (k', v) :: rest => if k' = k then some v else jlookup rest k

/-- serde encoding of the `Auth` struct: its named fields. -/
def encodeAuth (a : Auth) : List (String × Json) :=
  [("pub_key", .str a.pub_key), ("ciphertext", .str a.ciphertext),
   ("plaintext", .str a.plaintext)]

/-- serde decoding of the `Auth` struct from an object's fields. -/
def decodeAuth (fields : List (String × Json)) : Option Auth :=
  match jlookup fields "pub_key", jlookup fields "ciphertext",
      jlookup fields "plaintext" with
  | some (.str p), some (.str c), some (.str t) =>
      some { pub_key := p, ciphertext := c, plaintext := t }
  | _, _, _ => none

/-- serde encoding of the `Note` struct: its named fields. -/
def encodeNote (n : Note) : List (String × Json) :=
  [("from", .str n.from), ("to", .str n.«to»),
   ("encrypted_content", .str n.encrypted_content),
   ("timestamp", .str n.timestamp)]

/-- serde decoding of the `Note` struct from an object's fields. -/
def decodeNote (fields : List (String × Json)) : Option Note :=
  match jlookup fields "from", jlookup fields "to",
      jlookup fields "encrypted_content", jlookup fields "timestamp" with
  | some (.str f), some (.str t), some (.str c), some (.str ts) =>
      some { «from» := f, «to» := t, encrypted_content := c, timestamp := ts }
  | _, _, _, _ => none

/-- `serde(tag = "type")` encoding of `ClientMsg` (`impl fmt::Display for
ClientMsg`, via `serde_json::to_string`): one object carrying the variant name
under `"type"` with the payload's fields inlined. -/
def encodeClientMsg (m : ClientMsg) : Json :=
  match m with
  | .AuthReq a => .obj (("type", .str "AuthReq") :: encodeAuth a)
  | .AuthPlaintext a => .obj (("type", .str "AuthPlaintext") :: encodeAuth a)
  | .SendNote n => .obj (("type", .str "SendNote") :: encodeNote n)

/-- `serde(tag = "type")` decoding of `ClientMsg` (`impl FromStr for
ClientMsg`, via `serde_json::from_str`): read the discriminator, then the
variant's fields; unknown discriminators and malformed payloads fail. -/
def decodeClientMsg (j : Json) : Option ClientMsg :=
  match j with
  | .obj fields =>
    match jlookup fields "type" with
    | some (.str "AuthReq") => (decodeAuth fields).map .AuthReq
    | some (.str "AuthPlaintext") => (decodeAuth fields).map .AuthPlaintext
    | some (.str "SendNote") => (decodeNote fields).map .SendNote
    | _ => none
  | _ => none

/-- `serde(tag = "type")` encoding of `ServerMsg` (`impl fmt::Display for
ServerMsg`). -/
def encodeServerMsg (m : ServerMsg) : Json :=
  match m with
  | .AuthSecret a => .obj (("type", .str "AuthSecret") :: encodeAuth a)
  | .AuthGranted a => .obj (("type", .str "AuthGranted") :: encodeAuth a)
  | .AuthDenied a => .obj (("type", .str "AuthDenied") :: encodeAuth a)
  | .RecNote n => .obj (("type", .str "RecNote") :: encodeNote n)

/-- `serde(tag = "type")` decoding of `ServerMsg` (`impl FromStr for
ServerMsg`). -/
def decodeServerMsg (j : Json) : Option ServerMsg :=
  match j with
  | .obj fields =>
    match jlookup fields "type" with
    | some (.str "AuthSecret") => (decodeAuth fields).map .AuthSecret
    | some (.str "AuthGranted") => (decodeAuth fields).map .AuthGranted
    | some (.str "AuthDenied") => (decodeAuth fields).map .AuthDenied
    | some (.str "RecNote") => (decodeNote fields).map .RecNote
    | _ => none
  | _ => none

/-- The registry `UserConns = Arc<RwLock<HashMap<String, Sender<Note>>>>`,
mapping an authenticated identity to its connection's relay-channel handle.
Channel handles are numbered; the association list stands for the hash map
(keys are unique in every reachable state). -/
abbrev Registry := List (String × Nat)

/-- `HashMap::get` / `contains_key`: first-match lookup by key. -/
def lookupReg (reg : Registry) (k : String) : Option Nat :=
  match reg with
  | [] => none
  | (k', v) :: rest => if k' = k then some v else lookupReg rest k

/-- `HashMap::insert`: bind `k` to `v`, replacing any existing binding. -/
def insertReg (reg : Registry) (k : String) (v : Nat) : Registry :=
  (k, v) :: reg.filter (fun p => p.1 ≠ k)

/-- `HashMap::remove`: drop the binding for `k`. -/
def eraseReg (reg : Registry) (k : String) : Registry :=
  reg.filter (fun p => p.1 ≠ k)

/-- The per-connection authentication state of `struct Connection`:
`pub_key: Option<String>` (set on successful authentication) and
`auth_secret: Option<String>` (the pending challenge secret). -/
structure ConnState where
  pub_key : Option String
  auth_secret : Option String
deriving DecidableEq, Repr

/-- The state a fresh `Connection::new` starts in: nothing set. -/
def ConnState.init : ConnState := { pub_key := none, auth_secret := none }

/-- Observable effects of handling one message: a `socket.send` of a
`ServerMsg` back to this connection's client, or a `Sender::send` of a
`Note` into another connection's relay channel. -/
inductive Effect where
  | toClient (m : ServerMsg)
  | toChannel (ch : Nat) (n : Note)
deriving DecidableEq, Repr

/-- Oracle for the `age` crypto calls in `handle_auth_req`:
`Recipient::from_str` succeeds or fails on the claimed public key, and
`age::encrypt_and_armor` maps (recipient, secret) to a ciphertext. -/
structure CryptoOracle where
  parseRecipient : String → Bool
  encrypt : String → String → String

/-- `Connection::handle_auth_req`: unconditionally generate a fresh secret,
store it in `auth_secret`, parse the claimed key as an age recipient
(failure propagates as an error, after the secret was already stored),
encrypt the secret to it, and send `AuthSecret` (the challenge).
The registry is neither read nor written here.
Returns the new state, the emitted effects, and an error if one occurred. -/
def handle_auth_req (co : CryptoOracle) (fresh : String) (st : ConnState)
    (auth : Auth) : ConnState × List Effect × Option String :=
  let st' := { st with auth_secret := some fresh }
  if co.parseRecipient auth.pub_key then
    let ciphertext := co.encrypt auth.pub_key fresh
    (st', [.toClient (.AuthSecret
      { pub_key := auth.pub_key, ciphertext := ciphertext, plaintext := "" })],
     none)
  else
    (st', [], some "invalid recipient public key")

/-- `Connection::handle_auth_plaintext`: deny if the claimed identity is
already in `user_conns`; error out if no `auth_secret` is stored; deny if the
returned plaintext differs from the stored secret; otherwise insert
`pub_key → note_tx` into the registry, record `pub_key` in the connection
state, and send `AuthGranted`. `auth_secret` is left untouched on every path. -/
def handle_auth_plaintext (st : ConnState) (noteTx : Nat) (reg : Registry)
    (auth : Auth) : ConnState × Registry × List Effect × Option String :=
  if (lookupReg reg auth.pub_key).isSome then
    (st, reg, [.toClient (.AuthDenied auth)], none)
  else
    match st.auth_secret with
    | none => (st, reg, [], some "No auth secret set, cannot check")
    | some secret =>
      if secret ≠ auth.plaintext then
        (st, reg, [.toClient (.AuthDenied auth)], none)
      else
        ({ st with pub_key := some auth.pub_key },
         insertReg reg auth.pub_key noteTx,
         [.toClient (.AuthGranted auth)], none)

/-- `Connection::handle_send_note`: echo the note back to the sender's own
socket first, unconditionally; then look the recipient up in `user_conns` and,
if present, push the identical note onto that identity's relay channel; if
absent, drop it (log only, no message to the sender). The connection state is
neither read nor written. -/
def handle_send_note (st : ConnState) (reg : Registry) (note : Note) :
    ConnState × List Effect :=
  let echo := Effect.toClient (.RecNote note)
  match lookupReg reg note.«to» with
  | some recipientTx => (st, [echo, .toChannel recipientTx note])
  | none => (st, [echo])

/-- `Connection::handle_client_ws_text_msg`: decode the text payload as a
`ClientMsg` (a decode failure is an error that propagates) and dispatch to
the matching handler. `q` counts the `AuthReq` messages handled so far and
indexes the fresh-secret stream `freshFn`. -/
def handle_client_ws_text_msg (co : CryptoOracle) (freshFn : Nat → String)
    (noteTx : Nat) (payload : Json) (st : ConnState) (reg : Registry)
    (q : Nat) : ConnState × Registry × Nat × List Effect × Option String :=
  match decodeClientMsg payload with
  | none => (st, reg, q, [], some "malformed message")
  | some (.AuthReq a) =>
      let (st', effs, err) := handle_auth_req co (freshFn q) st a
      (st', reg, q + 1, effs, err)
  | some (.AuthPlaintext a) =>
      let (st', reg', effs, err) := handle_auth_plaintext st noteTx reg a
      (st', reg', q, effs, err)
  | some (.SendNote n) =>
      let (st', effs) := handle_send_note st reg n
      (st', reg, q, effs, none)

/-- One arrival at the `tokio::select!` loop of `serve_client_ws_conn`:
an inbound websocket frame (text, close, binary, frame, ping/pong), the
stream ending (`socket.next()` returning `None`), a note delivered on this
connection's relay channel, that channel closing, or the ctrl-c shutdown
signal. -/
inductive ConnEvent where
  | wsText (payload : Json)
  | wsClose
  | wsBinary
  | wsFrame
  | wsPing
  | wsStreamEnd
  | chanNote (n : Note)
  | chanClosed
  | ctrlC

/-- One iteration of the `serve_client_ws_conn` loop. The final component is
`none` while the loop continues, and `some r` when the loop returns with
`r : Except String Unit` (`Ok(())` on close or shutdown, an error on stream
end, channel close, or a handler error — including decode failures). -/
def connStep (co : CryptoOracle) (freshFn : Nat → String) (noteTx : Nat)
    (ev : ConnEvent) (st : ConnState) (reg : Registry) (q : Nat) :
    ConnState × Registry × Nat × List Effect × Option (Except String Unit) :=
  match ev with
  | .wsText payload =>
      let (st', reg', q', effs, err) :=
        handle_client_ws_text_msg co freshFn noteTx payload st reg q
      (st', reg', q', effs, err.map (fun e => Except.error e))
  | .wsClose => (st, reg, q, [], some (Except.ok ()))
  | .wsBinary => (st, reg, q, [], none)
  | .wsFrame => (st, reg, q, [], none)
  | .wsPing => (st, reg, q, [], none)
  | .wsStreamEnd => (st, reg, q, [], some (Except.error "Connection to server closed"))
  | .chanNote n => (st, reg, q, [.toClient (.RecNote n)], none)
  | .chanClosed => (st, reg, q, [], some (Except.error "Note channel closed"))
  | .ctrlC => (st, reg, q, [], some (Except.ok ()))

/-- `Connection::serve_client_ws_conn` over a finite event trace: fold
`connStep` until an iteration returns. The result's last component is `none`
when the trace ran out with the loop still running; once an iteration
returns, the remaining events are not processed. -/
def runConn (co : CryptoOracle) (freshFn : Nat → String) (noteTx : Nat) :
    List ConnEvent → ConnState → Registry → Nat →
    ConnState × Registry × Nat × List Effect × Option (Except String Unit)
  | [], st, reg, q => (st, reg, q, [], none)
  | ev :: rest, st, reg, q =>
    match connStep co freshFn noteTx ev st reg q with
    | (st', reg', q', effs, none) =>
      let (st'', reg'', q'', effs', r) := runConn co freshFn noteTx rest st' reg' q'
      (st'', reg'', q'', effs ++ effs', r)
    | (st', reg', q', effs, some r) => (st', reg', q', effs, some r)

/-- The registry cleanup in `Connection::serve`, run after the loop returns
(whatever its result): if this connection holds an authenticated `pub_key`,
remove that one identity from `user_conns`. -/
def connCleanup (st : ConnState) (reg : Registry) : Registry :=
  match st.pub_key with
  | some username => eraseReg reg username
  | none => reg

/-- `Connection::serve`: run the websocket loop over the trace, then perform
the registry cleanup and close the socket (close failures ignored). Returns
the registry as it stands when the connection task completes, the emitted
effects, and the loop's result. -/
def Connection.serve (co : CryptoOracle) (freshFn : Nat → String)
    (noteTx : Nat) (events : List ConnEvent) (st : ConnState)
    (reg : Registry) (q : Nat) :
    Registry × List Effect × Option (Except String Unit) :=
  let (st', reg', _, effs, r) := runConn co freshFn noteTx events st reg q
  (connCleanup st' reg', effs, r)

/-! ## Helper lemmas -/

/-- Decoding inverts encoding for client messages. -/
theorem decodeClientMsg_encodeClientMsg (m : ClientMsg) :
    decodeClientMsg (encodeClientMsg m) = some m := by
  cases m <;> rfl

/-- Decoding inverts encoding for server messages. -/
theorem decodeServerMsg_encodeServerMsg (m : ServerMsg) :
    decodeServerMsg (encodeServerMsg m) = some m := by
  cases m <;> rfl

/-- Looking up a key right after inserting it finds the inserted channel. -/
theorem lookupReg_insertReg_self (reg : Registry) (k : String) (v : Nat) :
    lookupReg (insertReg reg k v) k = some v := by
  simp [insertReg, lookupReg]

/-- Looking up a key right after erasing it finds nothing. -/
theorem lookupReg_eraseReg_self (reg : Registry) (k : String) :
    lookupReg (eraseReg reg k) k = none := by
  induction reg with
  | nil => rfl
  | cons p rest ih =>
    by_cases h : p.1 = k
    · simpa [eraseReg, List.filter_cons, h] using ih
    · simpa [eraseReg, List.filter_cons, h, lookupReg] using ih

/-- A concrete crypto oracle for closed evaluations: every key parses as a
recipient, and encryption tags the secret with the recipient key. -/
def testOracle : CryptoOracle :=
  { parseRecipient := fun _ => true
    encrypt := fun k s => k ++ ":" ++ s }

/-! ## Claims -/

/-- Claim C1, counterexample. With identity `alice` already in the registry
and the connection unauthenticated, `handle_auth_req` does not emit
`AuthDenied`: it stores a fresh secret in the connection state and emits an
`AuthSecret` challenge, contradicting the claim that a duplicate identity is
denied at `AuthRequest` time without a secret or challenge. -/
theorem auth_req_duplicate_identity_counterexample :
    connStep testOracle (fun _ => "s0") 0
        (.wsText (encodeClientMsg (.AuthReq
          { pub_key := "alice", ciphertext := "", plaintext := "" })))
        ConnState.init [("alice", 7)] 0 =
      ({ pub_key := none, auth_secret := some "s0" }, [("alice", 7)], 1,
       [.toClient (.AuthSecret
         { pub_key := "alice", ciphertext := "alice:s0", plaintext := "" })],
       none) ∧
    ([Effect.toClient (.AuthSecret
        { pub_key := "alice", ciphertext := "alice:s0", plaintext := "" })] ≠
      [Effect.toClient (.AuthDenied
        { pub_key := "alice", ciphertext := "", plaintext := "" })]) ∧
    some "s0" ≠ (none : Option String) :=
  ⟨rfl, by decide, by decide⟩

/-- Claim C1, amended: `handle_auth_req` never consults the registry — for
every connection state it stores the fresh secret as `auth_secret` and emits
an `AuthSecret` challenge, leaving the registry unchanged, even when the
claimed identity is already registered; the duplicate-identity check is
instead performed when `AuthPlaintext` arrives, at which point an
already-registered identity is answered with `AuthDenied` and nothing
changes. -/
theorem auth_req_always_challenges (co : CryptoOracle) (f : Nat → String)
    (tx : Nat) (st : ConnState) (reg : Registry) (q : Nat) (auth : Auth)
    (hparse : co.parseRecipient auth.pub_key = true) :
    connStep co f tx (.wsText (encodeClientMsg (.AuthReq auth))) st reg q =
      ({ st with auth_secret := some (f q) }, reg, q + 1,
       [.toClient (.AuthSecret
         { pub_key := auth.pub_key, ciphertext := co.encrypt auth.pub_key (f q),
           plaintext := "" })], none) ∧
    (∀ (st' : ConnState) (tx' : Nat) (reg' : Registry) (auth' : Auth),
      (lookupReg reg' auth'.pub_key).isSome →
      handle_auth_plaintext st' tx' reg' auth' =
        (st', reg', [.toClient (.AuthDenied auth')], none)) := by
  constructor
  · simp [connStep, handle_client_ws_text_msg, decodeClientMsg_encodeClientMsg,
      handle_auth_req, hparse]
  · intro st' tx' reg' auth' hdup
    simp [handle_auth_plaintext, hdup]

/-- Witness for `auth_req_always_challenges` at a concrete input: identity
`alice` is already registered, yet `AuthRequest` yields a challenge; the
subsequent `AuthPlaintext` naming `alice` is then denied. -/
theorem auth_req_always_challenges_witness :
    (testOracle.parseRecipient "alice" = true) ∧
    connStep testOracle (fun _ => "s0") 0
        (.wsText (encodeClientMsg (.AuthReq
          { pub_key := "alice", ciphertext := "", plaintext := "" })))
        ConnState.init [("alice", 7)] 0 =
      ({ pub_key := none, auth_secret := some "s0" }, [("alice", 7)], 1,
       [.toClient (.AuthSecret
         { pub_key := "alice", ciphertext := "alice:s0", plaintext := "" })],
       none) ∧
    handle_auth_plaintext { pub_key := none, auth_secret := some "s0" } 1
        [("alice", 7)]
        { pub_key := "alice", ciphertext := "", plaintext := "s0" } =
      ({ pub_key := none, auth_secret := some "s0" }, [("alice", 7)],
       [.toClient (.AuthDenied
         { pub_key := "alice", ciphertext := "", plaintext := "s0" })],
       none) := by
  have h := auth_req_always_challenges testOracle (fun _ => "s0") 0
    ConnState.init [("alice", 7)] 0
    { pub_key := "alice", ciphertext := "", plaintext := "" } rfl
  exact ⟨rfl, h.1,
    h.2 { pub_key := none, auth_secret := some "s0" } 1 [("alice", 7)]
      { pub_key := "alice", ciphertext := "", plaintext := "s0" } (by decide)⟩

/-- Claim C2, counterexample. After a wrong plaintext the handler leaves
`auth_secret` untouched rather than clearing it: the same state with
`auth_secret = some "s0"` comes back, and a subsequent `AuthPlaintext`
carrying `"s0"` is still checked against that old secret and granted —
contradicting the claim that `pendingSecret` is cleared so a later
`AuthPlaintext` cannot be checked against it. -/
theorem auth_plaintext_wrong_secret_counterexample :
    handle_auth_plaintext { pub_key := none, auth_secret := some "s0" } 0 []
        { pub_key := "alice", ciphertext := "", plaintext := "wrong" } =
      ({ pub_key := none, auth_secret := some "s0" }, [],
       [.toClient (.AuthDenied
         { pub_key := "alice", ciphertext := "", plaintext := "wrong" })],
       none) ∧
    (some "s0" ≠ (none : Option String)) ∧
    handle_auth_plaintext { pub_key := none, auth_secret := some "s0" } 9 []
        { pub_key := "alice", ciphertext := "", plaintext := "s0" } =
      ({ pub_key := some "alice", auth_secret := some "s0" }, [("alice", 9)],
       [.toClient (.AuthGranted
         { pub_key := "alice", ciphertext := "", plaintext := "s0" })],
       none) :=
  ⟨rfl, by decide, rfl⟩

/-- Claim C2, amended: with a pending secret stored, an unregistered claimed
identity and a plaintext that differs from the secret, `handle_auth_plaintext`
emits `AuthDenied` and changes nothing — the identity stays unregistered, the
connection state (including the retained, not cleared, `auth_secret`) is
returned unchanged, so a subsequent `AuthPlaintext` is checked against the
same secret. -/
theorem auth_plaintext_wrong_secret_denies (st : ConnState) (s : String)
    (reg : Registry) (auth : Auth) (tx : Nat)
    (hsec : st.auth_secret = some s)
    (hreg : lookupReg reg auth.pub_key = none)
    (hpt : auth.plaintext ≠ s) :
    handle_auth_plaintext st tx reg auth =
      (st, reg, [.toClient (.AuthDenied auth)], none) := by
  have hne : s ≠ auth.plaintext := fun h => hpt h.symm
  simp [handle_auth_plaintext, hreg, hsec, hne]

/-- Witness for `auth_plaintext_wrong_secret_denies` at a concrete input. -/
theorem auth_plaintext_wrong_secret_denies_witness :
    (({ pub_key := none, auth_secret := some "s0" } : ConnState).auth_secret
        = some "s0") ∧
    (lookupReg [] "alice" = none) ∧
    ("wrong" ≠ "s0") ∧
    handle_auth_plaintext { pub_key := none, auth_secret := some "s0" } 0 []
        { pub_key := "alice", ciphertext := "", plaintext := "wrong" } =
      ({ pub_key := none, auth_secret := some "s0" }, [],
       [.toClient (.AuthDenied
         { pub_key := "alice", ciphertext := "", plaintext := "wrong" })],
       none) := by
  refine ⟨rfl, rfl, by decide, ?_⟩
  exact auth_plaintext_wrong_secret_denies
    { pub_key := none, auth_secret := some "s0" } "s0" []
    { pub_key := "alice", ciphertext := "", plaintext := "wrong" } 0
    rfl rfl (by decide)

/-- Claim C3 (confirmed): with a pending secret `s` stored, the claimed
identity not yet in the registry, and a plaintext equal to `s`,
`handle_auth_plaintext` inserts `pub_key → note_tx` into the registry
(so the lookup finds this connection's relay channel), records the identity
in the connection state (`Authenticated`), and emits `AuthGranted`. -/
theorem auth_plaintext_correct_secret_registers (st : ConnState) (s : String)
    (reg : Registry) (auth : Auth) (tx : Nat)
    (hsec : st.auth_secret = some s)
    (hreg : lookupReg reg auth.pub_key = none)
    (hpt : auth.plaintext = s) :
    handle_auth_plaintext st tx reg auth =
      ({ st with pub_key := some auth.pub_key },
       insertReg reg auth.pub_key tx,
       [.toClient (.AuthGranted auth)], none) ∧
    lookupReg (insertReg reg auth.pub_key tx) auth.pub_key = some tx := by
  refine ⟨?_, lookupReg_insertReg_self reg auth.pub_key tx⟩
  simp [handle_auth_plaintext, hreg, hsec, hpt]

/-- Witness for `auth_plaintext_correct_secret_registers` at a concrete
input. -/
theorem auth_plaintext_correct_secret_registers_witness :
    (({ pub_key := none, auth_secret := some "s0" } : ConnState).auth_secret
        = some "s0") ∧
    (lookupReg [] "alice" = none) ∧
    ("s0" = "s0") ∧
    handle_auth_plaintext { pub_key := none, auth_secret := some "s0" } 5 []
        { pub_key := "alice", ciphertext := "", plaintext := "s0" } =
      ({ pub_key := some "alice", auth_secret := some "s0" },
       [("alice", 5)], [.toClient (.AuthGranted
         { pub_key := "alice", ciphertext := "", plaintext := "s0" })],
       none) := by
  refine ⟨rfl, rfl, rfl, ?_⟩
  exact (auth_plaintext_correct_secret_registers
    { pub_key := none, auth_secret := some "s0" } "s0" []
    { pub_key := "alice", ciphertext := "", plaintext := "s0" } 5 rfl rfl rfl).1

/-- Claim C4 (confirmed): acceptance depends only on the plaintext matching
the stored secret. After a challenge issued for `auth1.pub_key`, an
`AuthPlaintext` naming a different, unregistered identity `auth2.pub_key`
but carrying the correct plaintext is answered with `AuthGranted`, and
`auth2.pub_key` is the identity that ends up registered and recorded —
the handler never compares the echoed identity with the challenged one
(the connection state does not even retain the challenged identity). -/
theorem auth_accepts_plaintext_for_any_identity (co : CryptoOracle)
    (fresh : String) (st0 : ConnState) (reg : Registry) (tx : Nat)
    (auth1 auth2 : Auth)
    (hparse : co.parseRecipient auth1.pub_key = true)
    (hdiff : auth2.pub_key ≠ auth1.pub_key)
    (hreg : lookupReg reg auth2.pub_key = none)
    (hpt : auth2.plaintext = fresh) :
    handle_auth_plaintext (handle_auth_req co fresh st0 auth1).1 tx reg auth2 =
      ({ st0 with pub_key := some auth2.pub_key, auth_secret := some fresh },
       insertReg reg auth2.pub_key tx,
       [.toClient (.AuthGranted auth2)], none) ∧
    lookupReg (insertReg reg auth2.pub_key tx) auth2.pub_key = some tx := by
  refine ⟨?_, lookupReg_insertReg_self reg auth2.pub_key tx⟩
  have h1 : (handle_auth_req co fresh st0 auth1).1 =
      { st0 with auth_secret := some fresh } := by
    simp [handle_auth_req, hparse]
  rw [h1]
  simp [handle_auth_plaintext, hreg, hpt]

/-- Witness for `auth_accepts_plaintext_for_any_identity`: the challenge is
issued for `I1`, the reply names `I2` with the right plaintext, and `I2` is
granted and registered. -/
theorem auth_accepts_plaintext_for_any_identity_witness :
    (testOracle.parseRecipient "I1" = true) ∧
    ("I2" ≠ "I1") ∧
    (lookupReg [] "I2" = none) ∧
    ("s0" = "s0") ∧
    handle_auth_plaintext
        (handle_auth_req testOracle "s0" ConnState.init
          { pub_key := "I1", ciphertext := "", plaintext := "" }).1 4 []
        { pub_key := "I2", ciphertext := "", plaintext := "s0" } =
      ({ pub_key := some "I2", auth_secret := some "s0" }, [("I2", 4)],
       [.toClient (.AuthGranted
         { pub_key := "I2", ciphertext := "", plaintext := "s0" })],
       none) := by
  refine ⟨rfl, by decide, rfl, rfl, ?_⟩
  exact (auth_accepts_plaintext_for_any_identity testOracle "s0"
    ConnState.init [] 4
    { pub_key := "I1", ciphertext := "", plaintext := "" }
    { pub_key := "I2", ciphertext := "", plaintext := "s0" }
    rfl (by decide) rfl rfl).1

/-- Claim C5 (confirmed): a handled `SendNote` is echoed to the sending
connection as `RecNote` first and unconditionally; when the recipient is
registered, the identical note is additionally pushed onto the recipient's
relay channel; when it is not, only the echo happens — no error result and
no other effect, with connection state and registry unchanged either way. -/
theorem send_note_echo_and_relay (co : CryptoOracle) (f : Nat → String)
    (tx0 : Nat) (st : ConnState) (reg : Registry) (q : Nat) (note : Note) :
    (∀ tx, lookupReg reg note.«to» = some tx →
      connStep co f tx0 (.wsText (encodeClientMsg (.SendNote note))) st reg q =
        (st, reg, q, [.toClient (.RecNote note), .toChannel tx note], none)) ∧
    (lookupReg reg note.«to» = none →
      connStep co f tx0 (.wsText (encodeClientMsg (.SendNote note))) st reg q =
        (st, reg, q, [.toClient (.RecNote note)], none)) := by
  constructor
  · intro tx htx
    simp [connStep, handle_client_ws_text_msg, decodeClientMsg_encodeClientMsg,
      handle_send_note, htx]
  · intro hnone
    simp [connStep, handle_client_ws_text_msg, decodeClientMsg_encodeClientMsg,
      handle_send_note, hnone]

/-- Witness for `send_note_echo_and_relay`: a note to registered `bob` is
echoed then relayed to channel 3; a note to unregistered `carol` is only
echoed. -/
theorem send_note_echo_and_relay_witness :
    (lookupReg [("bob", 3)] "bob" = some 3) ∧
    connStep testOracle (fun _ => "s0") 0
        (.wsText (encodeClientMsg (.SendNote
          { «from» := "alice", «to» := "bob", encrypted_content := "c",
            timestamp := "2025-01-01T00:00:00Z" })))
        ConnState.init [("bob", 3)] 0 =
      (ConnState.init, [("bob", 3)], 0,
       [.toClient (.RecNote
          { «from» := "alice", «to» := "bob", encrypted_content := "c",
            timestamp := "2025-01-01T00:00:00Z" }),
        .toChannel 3
          { «from» := "alice", «to» := "bob", encrypted_content := "c",
            timestamp := "2025-01-01T00:00:00Z" }], none) ∧
    (lookupReg [("bob", 3)] "carol" = none) ∧
    connStep testOracle (fun _ => "s0") 0
        (.wsText (encodeClientMsg (.SendNote
          { «from» := "alice", «to» := "carol", encrypted_content := "c",
            timestamp := "2025-01-01T00:00:00Z" })))
        ConnState.init [("bob", 3)] 0 =
      (ConnState.init, [("bob", 3)], 0,
       [.toClient (.RecNote
          { «from» := "alice", «to» := "carol", encrypted_content := "c",
            timestamp := "2025-01-01T00:00:00Z" })], none) := by
  refine ⟨rfl, ?_, rfl, ?_⟩
  · exact (send_note_echo_and_relay testOracle (fun _ => "s0") 0
      ConnState.init [("bob", 3)] 0
      { «from» := "alice", «to» := "bob", encrypted_content := "c",
        timestamp := "2025-01-01T00:00:00Z" }).1 3 rfl
  · exact (send_note_echo_and_relay testOracle (fun _ => "s0") 0
      ConnState.init [("bob", 3)] 0
      { «from» := "alice", «to» := "carol", encrypted_content := "c",
        timestamp := "2025-01-01T00:00:00Z" }).2 rfl

/-- Claim C6 (confirmed): every `ClientMsg` and every `ServerMsg` round-trips
through its tagged serde encoding — decoding the encoding yields the original
message. -/
theorem wireMsg_roundtrip :
    (∀ m : ClientMsg, decodeClientMsg (encodeClientMsg m) = some m) ∧
    (∀ m : ServerMsg, decodeServerMsg (encodeServerMsg m) = some m) :=
  ⟨decodeClientMsg_encodeClientMsg, decodeServerMsg_encodeServerMsg⟩

/-- Claim C7 (confirmed): a text frame whose payload fails to decode as a
`ClientMsg` is fatal: the loop returns the decode error immediately — no
later event of the trace is processed, no effect is emitted, nothing
changes — and `Connection::serve` proceeds to teardown (registry cleanup)
with that error as the loop's result. -/
theorem malformed_msg_fatal (co : CryptoOracle) (f : Nat → String) (tx : Nat)
    (payload : Json) (rest : List ConnEvent) (st : ConnState) (reg : Registry)
    (q : Nat) (hbad : decodeClientMsg payload = none) :
    runConn co f tx (.wsText payload :: rest) st reg q =
      (st, reg, q, [], some (Except.error "malformed message")) ∧
    Connection.serve co f tx (.wsText payload :: rest) st reg q =
      (connCleanup st reg, [], some (Except.error "malformed message")) := by
  have hstep : connStep co f tx (.wsText payload) st reg q =
      (st, reg, q, [], some (Except.error "malformed message")) := by
    simp [connStep, handle_client_ws_text_msg, hbad]
  constructor
  · simp [runConn, hstep]
  · simp [Connection.serve, runConn, hstep]

/-- Witness for `malformed_msg_fatal`: an object with the unknown
discriminator `Bogus` kills the loop even though a well-formed close frame
follows it in the trace. -/
theorem malformed_msg_fatal_witness :
    (decodeClientMsg (.obj [("type", .str "Bogus")]) = none) ∧
    runConn testOracle (fun _ => "s0") 0
        [.wsText (.obj [("type", .str "Bogus")]), .wsClose]
        ConnState.init [] 0 =
      (ConnState.init, [], 0, [], some (Except.error "malformed message")) := by
  refine ⟨rfl, ?_⟩
  exact (malformed_msg_fatal testOracle (fun _ => "s0") 0
    (.obj [("type", .str "Bogus")]) [.wsClose] ConnState.init [] 0 rfl).1

/-- Claim C8, counterexample. A connection that authenticates as `I1` and
then — reusing the never-cleared secret — as `I2` registers both; the
cleanup in `Connection::serve` removes only the currently held `I2`, so
after the connection task completes the registry still maps the
disconnected connection's `I1` to its dead relay channel, contradicting
"the Registry never retains an entry for a disconnected connection". -/
theorem serve_stale_registry_counterexample :
    (Connection.serve testOracle (fun _ => "s0") 0
        [.wsText (encodeClientMsg (.AuthReq
           { pub_key := "I1", ciphertext := "", plaintext := "" })),
         .wsText (encodeClientMsg (.AuthPlaintext
           { pub_key := "I1", ciphertext := "", plaintext := "s0" })),
         .wsText (encodeClientMsg (.AuthPlaintext
           { pub_key := "I2", ciphertext := "", plaintext := "s0" })),
         .wsClose]
        ConnState.init [] 0).1 = [("I1", 0)] ∧
    lookupReg (Connection.serve testOracle (fun _ => "s0") 0
        [.wsText (encodeClientMsg (.AuthReq
           { pub_key := "I1", ciphertext := "", plaintext := "" })),
         .wsText (encodeClientMsg (.AuthPlaintext
           { pub_key := "I1", ciphertext := "", plaintext := "s0" })),
         .wsText (encodeClientMsg (.AuthPlaintext
           { pub_key := "I2", ciphertext := "", plaintext := "s0" })),
         .wsClose]
        ConnState.init [] 0).1 "I1" = some 0 :=
  ⟨rfl, rfl⟩

/-- Claim C8, amended: whenever the loop of `Connection::serve` ends — by
clean close, protocol error, transport error, or shutdown — the registry
entry for the identity currently held in the connection state is removed
before the task completes; entries left by earlier authentications of the
same connection are, however, not removed, so the registry can retain an
entry for a disconnected connection. -/
theorem serve_removes_current_identity (co : CryptoOracle) (f : Nat → String)
    (tx : Nat) (events : List ConnEvent) (st : ConnState) (reg : Registry)
    (q : Nat) (I : String)
    (hauth : (runConn co f tx events st reg q).1.pub_key = some I) :
    lookupReg (Connection.serve co f tx events st reg q).1 I = none := by
  rcases hres : runConn co f tx events st reg q with ⟨st', reg', q', effs, r⟩
  rw [hres] at hauth
  simp only at hauth
  simp only [Connection.serve, hres]
  simp [connCleanup, hauth, lookupReg_eraseReg_self]

/-- Witness for `serve_removes_current_identity`: `alice` authenticates and
the connection closes; afterwards the registry no longer contains `alice`. -/
theorem serve_removes_current_identity_witness :
    ((runConn testOracle (fun _ => "s0") 0
        [.wsText (encodeClientMsg (.AuthReq
           { pub_key := "alice", ciphertext := "", plaintext := "" })),
         .wsText (encodeClientMsg (.AuthPlaintext
           { pub_key := "alice", ciphertext := "", plaintext := "s0" })),
         .wsClose]
        ConnState.init [] 0).1.pub_key = some "alice") ∧
    lookupReg (Connection.serve testOracle (fun _ => "s0") 0
        [.wsText (encodeClientMsg (.AuthReq
           { pub_key := "alice", ciphertext := "", plaintext := "" })),
         .wsText (encodeClientMsg (.AuthPlaintext
           { pub_key := "alice", ciphertext := "", plaintext := "s0" })),
         .wsClose]
        ConnState.init [] 0).1 "alice" = none := by
  refine ⟨rfl, ?_⟩
  exact serve_removes_current_identity testOracle (fun _ => "s0") 0
    [.wsText (encodeClientMsg (.AuthReq
       { pub_key := "alice", ciphertext := "", plaintext := "" })),
     .wsText (encodeClientMsg (.AuthPlaintext
       { pub_key := "alice", ciphertext := "", plaintext := "s0" })),
     .wsClose]
    ConnState.init [] 0 "alice" rfl

/-- Claim C9, counterexample. On an authenticated connection (identity `I1`
held, old secret `s0` stored), an incoming `AuthRequest` for `I2` is not
ignored: the handler overwrites the pending secret with a fresh one and
emits a new `AuthSecret` challenge — a state change and a new challenge,
contradicting the claim. -/
theorem authenticated_auth_req_counterexample :
    connStep testOracle (fun _ => "f1") 0
        (.wsText (encodeClientMsg (.AuthReq
          { pub_key := "I2", ciphertext := "", plaintext := "" })))
        { pub_key := some "I1", auth_secret := some "s0" } [("I1", 0)] 0 =
      ({ pub_key := some "I1", auth_secret := some "f1" }, [("I1", 0)], 1,
       [.toClient (.AuthSecret
         { pub_key := "I2", ciphertext := "I2:f1", plaintext := "" })], none) ∧
    (({ pub_key := some "I1", auth_secret := some "f1" } : ConnState) ≠
      { pub_key := some "I1", auth_secret := some "s0" }) ∧
    ([Effect.toClient (.AuthSecret
        { pub_key := "I2", ciphertext := "I2:f1", plaintext := "" })] ≠
      ([] : List Effect)) :=
  ⟨rfl, by decide, by decide⟩

/-- Claim C9, amended: message handling is not gated on the authentication
state. While `Authenticated`, an `AuthRequest` is processed by the normal
handler — it overwrites the pending secret and emits a fresh challenge
(registry and held identity unchanged) — and an `AuthPlaintext` naming an
already-registered identity is answered with `AuthDenied` (state and
registry unchanged). -/
theorem authenticated_msgs_still_processed (co : CryptoOracle)
    (f : Nat → String) (tx : Nat) (st : ConnState) (reg : Registry) (q : Nat)
    (auth : Auth) (I : String)
    (hauth : st.pub_key = some I)
    (hparse : co.parseRecipient auth.pub_key = true) :
    connStep co f tx (.wsText (encodeClientMsg (.AuthReq auth))) st reg q =
      ({ st with auth_secret := some (f q) }, reg, q + 1,
       [.toClient (.AuthSecret
         { pub_key := auth.pub_key, ciphertext := co.encrypt auth.pub_key (f q),
           plaintext := "" })], none) ∧
    (∀ (auth' : Auth) (tx' : Nat), (lookupReg reg auth'.pub_key).isSome →
      handle_auth_plaintext st tx' reg auth' =
        (st, reg, [.toClient (.AuthDenied auth')], none)) := by
  constructor
  · simp [connStep, handle_client_ws_text_msg, decodeClientMsg_encodeClientMsg,
      handle_auth_req, hparse]
  · intro auth' tx' hdup
    simp [handle_auth_plaintext, hdup]

/-- Witness for `authenticated_msgs_still_processed` on a connection
authenticated as `I1`. -/
theorem authenticated_msgs_still_processed_witness :
    (({ pub_key := some "I1", auth_secret := some "s0" } : ConnState).pub_key
        = some "I1") ∧
    (testOracle.parseRecipient "I2" = true) ∧
    connStep testOracle (fun _ => "f1") 0
        (.wsText (encodeClientMsg (.AuthReq
          { pub_key := "I2", ciphertext := "", plaintext := "" })))
        { pub_key := some "I1", auth_secret := some "s0" } [("I1", 0)] 0 =
      ({ pub_key := some "I1", auth_secret := some "f1" }, [("I1", 0)], 1,
       [.toClient (.AuthSecret
         { pub_key := "I2", ciphertext := "I2:f1", plaintext := "" })], none) ∧
    ((lookupReg [("I1", 0)] "I1").isSome ∧
      handle_auth_plaintext { pub_key := some "I1", auth_secret := some "s0" }
          0 [("I1", 0)] { pub_key := "I1", ciphertext := "", plaintext := "x" } =
        ({ pub_key := some "I1", auth_secret := some "s0" }, [("I1", 0)],
         [.toClient (.AuthDenied
           { pub_key := "I1", ciphertext := "", plaintext := "x" })], none)) := by
  have h := authenticated_msgs_still_processed testOracle (fun _ => "f1") 0
    { pub_key := some "I1", auth_secret := some "s0" } [("I1", 0)] 0
    { pub_key := "I2", ciphertext := "", plaintext := "" } "I1" rfl rfl
  exact ⟨rfl, rfl, h.1, by decide,
    h.2 { pub_key := "I1", ciphertext := "", plaintext := "x" } 0 (by decide)⟩

/-- Claim C10 (confirmed): `handle_send_note` performs no authentication
check. Its emitted effects are the same for every connection state, and a
connection that never authenticated (`pub_key = none`) still has its
`SendNote` echoed back and relayed to a registered recipient's channel,
with no error. -/
theorem send_note_no_auth_check (co : CryptoOracle) (f : Nat → String)
    (tx0 : Nat) (reg : Registry) (q : Nat) (note : Note) :
    (∀ st st' : ConnState,
      (handle_send_note st reg note).2 = (handle_send_note st' reg note).2) ∧
    (∀ (st : ConnState) (tx : Nat), st.pub_key = none →
      lookupReg reg note.«to» = some tx →
      connStep co f tx0 (.wsText (encodeClientMsg (.SendNote note))) st reg q =
        (st, reg, q, [.toClient (.RecNote note), .toChannel tx note], none)) := by
  constructor
  · intro st st'
    cases h : lookupReg reg note.«to» <;> simp [handle_send_note, h]
  · intro st tx hunauth htx
    simp [connStep, handle_client_ws_text_msg, decodeClientMsg_encodeClientMsg,
      handle_send_note, htx]

/-- Witness for `send_note_no_auth_check`: the never-authenticated initial
state still gets its note echoed and relayed to `bob`'s channel 3. -/
theorem send_note_no_auth_check_witness :
    (ConnState.init.pub_key = none) ∧
    (lookupReg [("bob", 3)] "bob" = some 3) ∧
    connStep testOracle (fun _ => "s0") 0
        (.wsText (encodeClientMsg (.SendNote
          { «from» := "alice", «to» := "bob", encrypted_content := "c",
            timestamp := "2025-01-01T00:00:00Z" })))
        ConnState.init [("bob", 3)] 0 =
      (ConnState.init, [("bob", 3)], 0,
       [.toClient (.RecNote
          { «from» := "alice", «to» := "bob", encrypted_content := "c",
            timestamp := "2025-01-01T00:00:00Z" }),
        .toChannel 3
          { «from» := "alice", «to» := "bob", encrypted_content := "c",
            timestamp := "2025-01-01T00:00:00Z" }], none) := by
  refine ⟨rfl, rfl, ?_⟩
  exact (send_note_no_auth_check testOracle (fun _ => "s0") 0 [("bob", 3)] 0
    { «from» := "alice", «to» := "bob", encrypted_content := "c",
      timestamp := "2025-01-01T00:00:00Z" }).2 ConnState.init 3 rfl rfl
